import Mathlib

/-
Verification of the winebasin privileged mount-session manager (src/main.rs).

Byte strings (Rust `Vec<u8>` / `OsStr` contents) are modelled as `List Nat`,
one entry per byte.  All functions are executable.
-/

/-- Byte representation of an ASCII string literal: each character as its code
point.  Paths and command-line arguments in the program are byte strings. -/
def ascii (s : String) : List Nat := s.data.map Char.toNat

/-- Whitespace test matching Rust `str::trim` on the ASCII bytes that can occur
on the acknowledgment pipe. -/
def isWs (b : Nat) : Bool := b = 32 || b = 9 || b = 13 || b = 10

/-- Embeds Rust `str::trim` on byte lines: strip leading and trailing
whitespace. -/
def trimBytes (s : List Nat) : List Nat :=
  ((s.dropWhile (fun b => isWs b)).reverse.dropWhile (fun b => isWs b)).reverse

/-- Fueled helper for `natDigits`; the fuel is always sufficient at the call
site. -/
def natDigitsAux : Nat → Nat → List Nat
  | 0, _ => []
  | f + 1, n => if n < 10 then [48 + n] else natDigitsAux f (n / 10) ++ [48 + n % 10]

/-- Embeds Rust `usize::to_string`: decimal digits of a natural number, most
significant first.  Used for the acknowledgment marker values. -/
def natDigits (n : Nat) : List Nat := natDigitsAux (n + 1) n

/-- Modelled from the spec: per-argument shell quoting.  The program delegates
this to `shlex::bytes::try_quote`, an external crate not part of this
repository; per spec 4.1 each argument is quoted independently with
shell-quoting rules ("the whole token wrapped in quotes").  A single quote
inside the token is rendered as close-quote, backslash-escaped quote,
reopen-quote. -/
def escByte (b : Nat) : List Nat := if b = 39 then [39, 92, 39, 39] else [b]

/-- Concatenation of the per-byte escapes of a token. -/
def escAll : List Nat → List Nat
  | [] => []
  | b :: r => escByte b ++ escAll r

/-- One shell-quoted token: the escaped body wrapped in single quotes. -/
def quoteOne (a : List Nat) : List Nat := 39 :: (escAll a ++ [39])

/-- Modelled from the spec: quoting "fails with an EscapingError if an argument
contains a byte sequence that cannot be safely represented (e.g., embedded
NUL)"; otherwise the shell-quoted token is produced. -/
def try_quote (a : List Nat) : Option (List Nat) :=
  if 0 ∈ a then none else some (quoteOne a)

/-- Error raised by the quoting utility: the index of the offending argument. -/
inductive QErr where
  | escaping (i : Nat)
deriving DecidableEq

/-- Embeds the loop body of `quote_subcommand` starting at argument index `i`:
a space is emitted before every argument except the first (index 0), each
argument is quoted, and a quoting failure aborts with the argument index. -/
def quoteGo (i : Nat) : List (List Nat) → Except QErr (List Nat)
  | [] => .ok []
  | a :: rest =>
    match try_quote a with
    | none => .error (.escaping i)
    | some q =>
      match quoteGo (i + 1) rest with
      | .error e => .error e
      | .ok tail => .ok ((if 0 < i then [32] else []) ++ q ++ tail)

/-- Embeds `quote_subcommand` (src/main.rs 237-253): quote each argument
independently, join with single spaces, or fail with the index of the first
argument that cannot be escaped. -/
def quote_subcommand (args : List (List Nat)) : Except QErr (List Nat) :=
  quoteGo 0 args

/-- Quoted arguments, each preceded by one space. -/
def catSpaced : List (List Nat) → List Nat
  | [] => []
  | a :: rest => 32 :: (quoteOne a ++ catSpaced rest)

/-- Closed form of the success output of `quote_subcommand`: the first argument
quoted, then each further argument quoted and preceded by a single space. -/
def joinQuoted : List (List Nat) → List Nat
  | [] => []
  | a :: rest => quoteOne a ++ catSpaced rest

/-- Quoting state of the POSIX shell tokenizer. -/
inductive TState where
  | norm
  | insingle
  | indouble
deriving DecidableEq

/-- Modelled from the spec: a POSIX-shell-compatible tokenizer ("splitting the
quoted output with a standard shell-token parser", spec section 8).  Fields are
split on unquoted spaces; single-quoted spans are literal; double-quoted spans
honor backslash escapes of dollar, backtick, double quote and backslash;
an unquoted backslash escapes the next byte.  An unterminated quote or a
trailing backslash is a syntax error (`none`).  `cur` is the token being
accumulated and `started` records whether it exists, so that empty quoted
tokens are kept. -/
def shellSplit (inp : List Nat) (st : TState) (cur : List Nat) (started : Bool) :
    Option (List (List Nat)) :=
  match inp, st with
  | [], .norm => some (if started then [cur] else [])
  | [], .insingle => none
  | [], .indouble => none
  | b :: rest, .norm =>
    if b = 32 then
      if started then
        Option.map (fun ts => cur :: ts) (shellSplit rest .norm [] false)
      else shellSplit rest .norm [] false
    else if b = 39 then shellSplit rest .insingle cur true
    else if b = 34 then shellSplit rest .indouble cur true
    else if b = 92 then
      match rest with
      | [] => none
      | d :: rest2 => shellSplit rest2 .norm (cur ++ [d]) true
    else shellSplit rest .norm (cur ++ [b]) true
  | b :: rest, .insingle =>
    if b = 39 then shellSplit rest .norm cur true
    else shellSplit rest .insingle (cur ++ [b]) true
  | b :: rest, .indouble =>
    if b = 34 then shellSplit rest .norm cur true
    else if b = 92 then
      match rest with
      | [] => none
      | d :: rest2 =>
        if d = 34 ∨ d = 92 ∨ d = 36 ∨ d = 96 then
          shellSplit rest2 .indouble (cur ++ [d]) true
        else shellSplit rest2 .indouble (cur ++ [92, d]) true
    else shellSplit rest .indouble (cur ++ [b]) true
termination_by inp.length

/-- Embeds Rust `PathBuf::join` on byte-string paths: an absolute right side
replaces the left; otherwise a separator is inserted unless the left side is
empty or already ends with one. -/
def pathJoin (p q : List Nat) : List Nat :=
  if q.head? = some 47 then q
  else if p = [] then q
  else if p.getLast? = some 47 then p ++ q
  else p ++ 47 :: q

/-- Embeds `basis_path` (src/main.rs 387-389), with the root data directory
passed explicitly (the program reads it from a process-wide cached lookup,
which spec section 9 directs to treat as an injected configuration value). -/
def basis_path (root name : List Nat) : List Nat :=
  pathJoin (pathJoin root (ascii "basis")) name

/-- Embeds `basis_config_path` (src/main.rs 391-393). -/
def basis_config_path (bp : List Nat) : List Nat := pathJoin bp (ascii "config.json")

/-- Embeds `basis_prefix_path` (src/main.rs 395-397). -/
def basis_prefix_path (bp : List Nat) : List Nat := pathJoin bp (ascii "prefix")

/-- Embeds `system_path` (src/main.rs 472-474), root passed explicitly. -/
def system_path (root name : List Nat) : List Nat :=
  pathJoin (pathJoin root (ascii "system")) name

/-- Embeds `system_config_path` (src/main.rs 476-478). -/
def system_config_path (sp : List Nat) : List Nat := pathJoin sp (ascii "config.json")

/-- Embeds `system_prefix_path` (src/main.rs 480-482). -/
def system_prefix_path (sp : List Nat) : List Nat := pathJoin sp (ascii "prefix")

/-- Embeds `system_overlay_work_path` (src/main.rs 484-486). -/
def system_overlay_work_path (sp : List Nat) : List Nat := pathJoin sp (ascii "overlay_work")

/-- Embeds `system_mount_path` (src/main.rs 488-490). -/
def system_mount_path (sp : List Nat) : List Nat := pathJoin sp (ascii "mount")

/-- Events the parent can observe on its end of the private acknowledgment
pipe: a line of bytes, or an I/O error from the line reader.  The end of the
list is EOF (the write end was closed, e.g. because the elevated child
exited). -/
inductive ReadEvent where
  | line (s : List Nat)
  | ioErr
deriving DecidableEq

/-- Channel failures surfaced by `sudo_exec`: a failed write to the child
stdin, or an I/O error while reading an acknowledgment line. -/
inductive ChanErr where
  | writeFailed
  | readFailed
deriving DecidableEq

/-- State of the privileged channel: the marker counter `i`, the remaining
parent-side pipe stream, and the trace of statements whose submission was
attempted (written to the child stdin), in order. -/
structure ChanSt where
  i : Nat
  pipe : List ReadEvent
  written : List (List Nat)
deriving DecidableEq

/-- Statement that echoes marker `n` to the private file descriptor
(src/main.rs 292). -/
def echoStmt (n : Nat) : List Nat := ascii "echo " ++ natDigits n ++ ascii " >&3"

/-- Embeds the acknowledgment read loop of `sudo_exec` (src/main.rs 294-300):
read lines until one trims to the wanted marker, propagating an I/O error on a
line; the while-let loop is also left, without an error, when the stream ends
(EOF).  Returns the remaining stream and the error, if any. -/
def readLoop (want : List Nat) : List ReadEvent → List ReadEvent × Option ChanErr
  | [] => ([], none)
  | .ioErr :: rest => (rest, some .readFailed)
  | .line s :: rest =>
    if trimBytes s = want then (rest, none)
    else readLoop want rest

/-- Embeds the `sudo_exec` closure (src/main.rs 285-303).  `wOk i` is an oracle
for whether the stdin writes for marker number `i` succeed (they fail when the
elevated child has already exited and closed its stdin).  The submitted
statement — and, when the writes go through, the marker echo statement — are
recorded in `written`; on a successful write the counter advances and the
acknowledgment loop consumes the pipe. -/
def sudo_exec (wOk : Nat → Bool) (st : ChanSt) (stmt : List Nat) :
    ChanSt × Option ChanErr :=
  if wOk st.i then
    let r := readLoop (natDigits st.i) st.pipe
    ({ st with i := st.i + 1, pipe := r.1, written := st.written ++ [stmt, echoStmt st.i] }, r.2)
  else
    ({ st with written := st.written ++ [stmt] }, some .writeFailed)

/-- Runs a list of statements sequentially through `sudo_exec`, stopping at the
first error, as the single synchronous caller thread does. -/
def execAll (wOk : Nat → Bool) (st : ChanSt) : List (List Nat) → ChanSt × Option ChanErr
  | [] => (st, none)
  | s :: rest =>
    let r := sudo_exec wOk st s
    match r.2 with
    | some e => (r.1, some e)
    | none => execAll wOk r.1 rest

/-- Events of the elevated interpreter, in execution order: running a
submitted statement, or emitting an acknowledgment marker. -/
inductive CEvent where
  | exec (s : List Nat)
  | ack (n : Nat)
deriving DecidableEq

/-- Modelled from the spec: the elevated interpreter is an external `bash -eu`
process; per spec 4.2 steps 3-4 it runs each submitted statement to completion
and only then runs the echo statement that emits that statement's
acknowledgment marker, synchronously and in submission order.  `k` is the
marker value of the first statement. -/
def childRun (k : Nat) : List (List Nat) → List CEvent
  | [] => []
  | s :: rest => .exec s :: .ack k :: childRun (k + 1) rest

/-- Marker values of a child event trace, in emission order. -/
def acksOf : List CEvent → List Nat
  | [] => []
  | .ack n :: r => n :: acksOf r
  | .exec _ :: r => acksOf r

/-- Pipe content produced by a child that successfully executes `n` statements
whose markers start at `k`. -/
def ackLines (k n : Nat) : List ReadEvent :=
  match n with
  | 0 => []
  | m + 1 => .line (natDigits k) :: ackLines (k + 1) m

/-- Interleaved script the parent writes for a statement list with markers
starting at `k`: each statement followed by its marker echo statement. -/
def script (k : Nat) : List (List Nat) → List (List Nat)
  | [] => []
  | s :: rest => s :: echoStmt k :: script (k + 1) rest

/-- Errors out of `mount_prefix`: a quoting failure or a channel failure
(the Rust code carries both as untyped `loga::Error`). -/
inductive MErr where
  | escaping (i : Nat)
  | chan (e : ChanErr)
deriving DecidableEq

/-- Argument list of the overlay mount statement (src/main.rs 308-322). -/
def mountArgs (basisP systemP : List Nat) : List (List Nat) :=
  [ascii "mount", ascii "--types", ascii "overlay", ascii "overlay", ascii "--options",
    ascii "lowerdir=" ++ basis_prefix_path basisP ++ ascii ",upperdir=" ++
      system_prefix_path systemP ++ ascii ",workdir=" ++
      system_overlay_work_path systemP ++ ascii ",metacopy=off,index=off",
    system_mount_path systemP]

/-- Embeds `mount_prefix` (src/main.rs 256-349) from the point the elevated
channel is up: quote the mount statement, submit it over the channel, and on
success return the merged mount path together with the channel state that the
returned drop guard captures.  `pipe` is the parent-side pipe behavior of the
elevated child and `wOk` the stdin write oracle. -/
def mount_prefix (wOk : Nat → Bool) (pipe : List ReadEvent) (basisP systemP : List Nat) :
    Except MErr (List Nat × ChanSt) :=
  match quote_subcommand (mountArgs basisP systemP) with
  | .error (.escaping i) => .error (.escaping i)
  | .ok stmt =>
    let r := sudo_exec wOk { i := 0, pipe := pipe, written := [] } stmt
    match r.2 with
    | some e => .error (.chan e)
    | none => .ok (system_mount_path systemP, r.1)

/-- The only way the guard release body can abort rather than return: the
`.unwrap()` on quoting the umount statement (src/main.rs 332) panics. -/
inductive RelPanic where
  | unwrapFailed
deriving DecidableEq

/-- Embeds the drop guard body returned by `mount_prefix` (src/main.rs
327-345): quote the umount statement (via `.unwrap()`, so a quoting failure
would panic), submit it over the same channel, then close the child stdin and
wait for the elevated process.  `waitRes` models `sudo.wait_with_output()`:
`none` is a failed wait, `some b` an exit whose success flag is `b`.  A
non-zero exit is logged as a warning inside the closure; any error of the
inner closure is converted to a warning by the surrounding `.log(...)` call.
Returns the logged warnings and the final channel state. -/
def releaseGuard (wOk : Nat → Bool) (waitRes : Option Bool) (mountPath : List Nat)
    (st : ChanSt) : Except RelPanic (List String × ChanSt) :=
  match quote_subcommand [ascii "umount", mountPath] with
  | .error _ => .error .unwrapFailed
  | .ok stmt =>
    let r := sudo_exec wOk st stmt
    match r.2 with
    | some _ => .ok (["Error completing cleanup"], r.1)
    | none =>
      match waitRes with
      | none => .ok (["Error completing cleanup"], r.1)
      | some true => .ok ([], r.1)
      | some false => .ok (["Cleanup sudo process exited with error"], r.1)

/-- Outcome of the work done against the merged path (run_shell / wine run);
it does not touch the privileged channel. -/
inductive BodyOut where
  | bodyOk
  | bodyErr
deriving DecidableEq

/-- Result of the whole system shell/run flow. -/
inductive MainErr where
  | acquire (e : MErr)
  | panicked
  | bodyFailed
deriving DecidableEq

/-- Embeds the `system shell` / `system run` arms of `main` (src/main.rs
589-613) around the mount: acquire the guard, run the body, and — on both body
outcomes, because Rust drops the guard on every exit path, normal or unwinding
— run the guard release exactly when a guard was returned.  Returns the overall
result together with the trace of statements submitted on the channel. -/
def system_shell_main (wOk : Nat → Bool) (pipe : List ReadEvent) (waitRes : Option Bool)
    (basisP systemP : List Nat) (body : BodyOut) : Option MainErr × List (List Nat) :=
  match mount_prefix wOk pipe basisP systemP with
  | .error e => (some (.acquire e), [])
  | .ok (mp, st1) =>
    let bodyRes : Option MainErr :=
      match body with
      | .bodyOk => none
      | .bodyErr => some .bodyFailed
    match releaseGuard wOk waitRes mp st1 with
    | .error _ => (some .panicked, st1.written)
    | .ok (_, st2) => (bodyRes, st2.written)

/-- Recognizes a submitted statement as the quoted umount statement: it begins
with a single-quote byte (39) and then the first two letters of umount
(117 109); every other statement submitted by the program begins differently. -/
def isUmount (s : List Nat) : Bool := s.take 3 = [39, 117, 109]

/-- Architecture tag, src/main.rs 66-70. -/
inductive Arch where
  | Win32
  | Win64
deriving DecidableEq

/-- Basis config schema version 1, src/main.rs 72-75. -/
structure BasisConfigV1 where
  arch : Arch
deriving DecidableEq

/-- Version-tagged basis config union, src/main.rs 79-82. -/
inductive BasisConfig where
  | V1 (c : BasisConfigV1)
deriving DecidableEq

/-- System config schema version 1, src/main.rs 84-87. -/
structure SystemConfigV1 where
  basis_name : String
deriving DecidableEq

/-- Version-tagged system config union, src/main.rs 91-94. -/
inductive SystemConfig where
  | V1 (c : SystemConfigV1)
deriving DecidableEq

/-- Minimal JSON value model for the config records. -/
inductive JVal where
  | jstr (s : String)
  | jobj (fields : List (String × JVal))

/-- Failure modes of config decoding: an unrecognized version tag, or payload
data that does not match the schema. -/
inductive CfgErr where
  | unknownVariant
  | invalidData
deriving DecidableEq

/-- Modelled from the spec: serde encoding of the `Arch` field enum (unit
variants as their names). -/
def encodeArch : Arch → JVal
  | .Win32 => .jstr "Win32"
  | .Win64 => .jstr "Win64"

/-- Modelled from the spec: serde decoding of the `Arch` field enum. -/
def decodeArch : JVal → Except CfgErr Arch
  | .jstr s =>
    if s = "Win32" then .ok .Win32
    else if s = "Win64" then .ok .Win64
    else .error .invalidData
  | _ => .error .invalidData

/-- Serde encoding of the V1 basis payload. -/
def encodeBasisV1 (c : BasisConfigV1) : JVal := .jobj [("arch", encodeArch c.arch)]

/-- Serde decoding of the V1 basis payload. -/
def decodeBasisV1 : JVal → Except CfgErr BasisConfigV1
  | .jobj [("arch", v)] =>
    match decodeArch v with
    | .ok a => .ok { arch := a }
    | .error e => .error e
  | _ => .error .invalidData

/-- Modelled from the spec: the serde externally-tagged representation of the
version envelope — a one-entry object whose key is the variant name.  Readers
"must dispatch on the version tag and reject unknown tags" (spec section 3);
an unrecognized key yields an unknown-variant error, never a default. -/
def encodeBasisConfig : BasisConfig → JVal
  | .V1 c => .jobj [("V1", encodeBasisV1 c)]

/-- Decoding of the version-tagged basis config, dispatching on the tag. -/
def decodeBasisConfig : JVal → Except CfgErr BasisConfig
  | .jobj [(tag, payload)] =>
    if tag = "V1" then
      match decodeBasisV1 payload with
      | .ok c => .ok (.V1 c)
      | .error e => .error e
    else .error .unknownVariant
  | _ => .error .invalidData

/-- Serde encoding of the V1 system payload. -/
def encodeSystemV1 (c : SystemConfigV1) : JVal :=
  .jobj [("basis_name", .jstr c.basis_name)]

/-- Serde decoding of the V1 system payload. -/
def decodeSystemV1 : JVal → Except CfgErr SystemConfigV1
  | .jobj [("basis_name", .jstr s)] => .ok { basis_name := s }
  | _ => .error .invalidData

/-- Version-tagged encoding of the system config. -/
def encodeSystemConfig : SystemConfig → JVal
  | .V1 c => .jobj [("V1", encodeSystemV1 c)]

/-- Decoding of the version-tagged system config, dispatching on the tag. -/
def decodeSystemConfig : JVal → Except CfgErr SystemConfig
  | .jobj [(tag, payload)] =>
    if tag = "V1" then
      match decodeSystemV1 payload with
      | .ok c => .ok (.V1 c)
      | .error e => .error e
    else .error .unknownVariant
  | _ => .error .invalidData

/-- Embeds the basis config write site (src/main.rs 523-525): the writer
constructs and emits the latest (`V1`) version. -/
def basis_write_value (c : BasisConfigV1) : JVal := encodeBasisConfig (.V1 c)

/-- Embeds the system config write site (src/main.rs 582-587): the writer
constructs and emits the latest (`V1`) version. -/
def system_write_value (c : SystemConfigV1) : JVal := encodeSystemConfig (.V1 c)

/-- Failure of `basis create`. -/
inductive CreateErr where
  | alreadyExists
deriving DecidableEq

/-- Embeds the `basis create` arm of `main` (src/main.rs 511-530) over an
abstract filesystem, the list of existing paths: if the basis directory
already exists the operation fails immediately and changes nothing; otherwise
the basis directory is created and the config file written (the wine prefix
initialization that follows is an external process, out of model).  Returns
the new filesystem and the error, if any. -/
def basis_create (fs : List (List Nat)) (root name : List Nat) :
    List (List Nat) × Option CreateErr :=
  let bp := basis_path root name
  if bp ∈ fs then (fs, some .alreadyExists)
  else (fs ++ [bp, basis_config_path bp], none)

/-- Write oracle of a healthy channel: every stdin write succeeds. -/
def allW : Nat → Bool := fun _ => true

/-- Concrete basis directory used in closed evaluations. -/
def bpath0 : List Nat := basis_path (ascii "/data") (ascii "b1")

/-- Concrete system directory used in closed evaluations. -/
def spath0 : List Nat := system_path (ascii "/data") (ascii "s1")

/-- Concrete NUL-free argument list used by the quoting witness: a plain word,
a word with a space, the empty argument, a word with an embedded single quote,
and a word with shell metacharacters. -/
def args0 : List (List Nat) := [ascii "ls", ascii "a b", [], [104, 39, 105], ascii "$xY"]

/-- Concrete argument list whose second argument embeds a NUL byte. -/
def args1 : List (List Nat) := [ascii "ok", [97, 0, 98]]

/-- Step lemma: end of input in normal state closes the started token. -/
theorem shellSplit_nil_norm (cur : List Nat) (started : Bool) :
    shellSplit [] .norm cur started = some (if started then [cur] else []) := by
  rw [shellSplit.eq_def]

/-- Step lemma: an unquoted space after a started token emits the token. -/
theorem shellSplit_space (rest cur : List Nat) :
    shellSplit (32 :: rest) .norm cur true
      = Option.map (fun ts => cur :: ts) (shellSplit rest .norm [] false) := by
  rw [shellSplit.eq_def]
  simp

/-- Step lemma: an unquoted single quote opens a single-quoted span. -/
theorem shellSplit_openq (rest cur : List Nat) (started : Bool) :
    shellSplit (39 :: rest) .norm cur started = shellSplit rest .insingle cur true := by
  rw [shellSplit.eq_def]
  simp

/-- Step lemma: an unquoted backslash escapes the next byte. -/
theorem shellSplit_bsl (d : Nat) (rest cur : List Nat) (started : Bool) :
    shellSplit (92 :: d :: rest) .norm cur started
      = shellSplit rest .norm (cur ++ [d]) true := by
  rw [shellSplit.eq_def]
  simp

/-- Step lemma: a single quote inside a single-quoted span closes it. -/
theorem shellSplit_closeq (rest cur : List Nat) :
    shellSplit (39 :: rest) .insingle cur true = shellSplit rest .norm cur true := by
  rw [shellSplit.eq_def]
  simp

/-- Step lemma: any other byte inside a single-quoted span is literal. -/
theorem shellSplit_single_lit (b : Nat) (hb : b ≠ 39) (rest cur : List Nat) :
    shellSplit (b :: rest) .insingle cur true
      = shellSplit rest .insingle (cur ++ [b]) true := by
  rw [shellSplit.eq_def]
  simp [hb]

/-- Processing an escaped token body inside a single-quoted span appends the
original bytes to the current token and returns to normal state at the closing
quote. -/
theorem shellSplit_escAll (a : List Nat) (s cur : List Nat) :
    shellSplit (escAll a ++ (39 :: s)) .insingle cur true
      = shellSplit s .norm (cur ++ a) true := by
  induction a generalizing cur with
  | nil =>
    rw [escAll, List.nil_append, shellSplit_closeq]
    simp
  | cons b r ih =>
    by_cases hb : b = 39
    · subst hb
      have he : escByte 39 = [39, 92, 39, 39] := rfl
      rw [escAll, he]
      have hshape : ([39, 92, 39, 39] ++ escAll r) ++ (39 :: s)
          = 39 :: 92 :: 39 :: 39 :: (escAll r ++ (39 :: s)) := by simp
      rw [hshape, shellSplit_closeq, shellSplit_bsl, shellSplit_openq, ih]
      simp
    · have he : escByte b = [b] := by simp [escByte, hb]
      rw [escAll, he]
      have hshape : ([b] ++ escAll r) ++ (39 :: s) = b :: (escAll r ++ (39 :: s)) := by simp
      rw [hshape, shellSplit_single_lit b hb, ih]
      simp

/-- Tokenizing one quoted token appends its bytes to the current token. -/
theorem shellSplit_quoteOne (a s cur : List Nat) (started : Bool) :
    shellSplit (quoteOne a ++ s) .norm cur started
      = shellSplit s .norm (cur ++ a) true := by
  have h1 : quoteOne a ++ s = 39 :: (escAll a ++ (39 :: s)) := by
    simp [quoteOne, List.append_assoc]
  rw [h1, shellSplit_openq, shellSplit_escAll]

/-- Tokenizing the space-separated quoted tail yields the current token
followed by the original tail arguments. -/
theorem shellSplit_catSpaced (rest : List (List Nat)) (cur : List Nat) :
    shellSplit (catSpaced rest) .norm cur true = some (cur :: rest) := by
  induction rest generalizing cur with
  | nil =>
    rw [catSpaced, shellSplit_nil_norm]
    simp
  | cons b r ih =>
    rw [catSpaced, shellSplit_space, shellSplit_quoteOne b (catSpaced r) [] false]
    simp only [List.nil_append]
    rw [ih]
    rfl

/-- Tokenizing the joined quoted output of any argument list recovers exactly
the original argument list. -/
theorem shellSplit_joinQuoted (args : List (List Nat)) :
    shellSplit (joinQuoted args) .norm [] false = some args := by
  cases args with
  | nil =>
    rw [joinQuoted, shellSplit_nil_norm]
    simp
  | cons a rest =>
    rw [joinQuoted, shellSplit_quoteOne a (catSpaced rest) [] false]
    simp only [List.nil_append]
    exact shellSplit_catSpaced rest a

/-- On NUL-free arguments `quoteGo` from a positive index produces every
argument quoted and preceded by a space. -/
theorem quoteGo_ok (args : List (List Nat)) (i : Nat) (hi : 0 < i)
    (h : ∀ a ∈ args, (0 : Nat) ∉ a) :
    quoteGo i args = .ok (catSpaced args) := by
  induction args generalizing i with
  | nil => simp [quoteGo, catSpaced]
  | cons a rest ih =>
    have ha : (0 : Nat) ∉ a := h a (List.mem_cons_self a rest)
    have hrest : ∀ b ∈ rest, (0 : Nat) ∉ b := fun b hb => h b (List.mem_cons_of_mem a hb)
    rw [quoteGo]
    simp only [try_quote, if_neg ha]
    rw [ih (i + 1) (Nat.succ_pos i) hrest]
    simp [hi, catSpaced]

/-- On NUL-free arguments `quote_subcommand` succeeds with the space-joined
independently quoted arguments. -/
theorem quote_subcommand_ok (args : List (List Nat)) (h : ∀ a ∈ args, (0 : Nat) ∉ a) :
    quote_subcommand args = .ok (joinQuoted args) := by
  cases args with
  | nil => simp [quote_subcommand, quoteGo, joinQuoted]
  | cons a rest =>
    have ha : (0 : Nat) ∉ a := h a (List.mem_cons_self a rest)
    have hrest : ∀ b ∈ rest, (0 : Nat) ∉ b := fun b hb => h b (List.mem_cons_of_mem a hb)
    rw [quote_subcommand, quoteGo]
    simp only [try_quote, if_neg ha]
    rw [quoteGo_ok rest 1 Nat.one_pos hrest]
    simp [joinQuoted]

/-- A successful `quoteGo` implies every argument is NUL-free. -/
theorem quoteGo_ok_nulfree (args : List (List Nat)) (i : Nat) (out : List Nat)
    (h : quoteGo i args = .ok out) : ∀ a ∈ args, (0 : Nat) ∉ a := by
  induction args generalizing i out with
  | nil => intro a ha; cases ha
  | cons a rest ih =>
    intro b hb
    rw [quoteGo] at h
    by_cases ha : (0 : Nat) ∈ a
    · simp [try_quote, ha] at h
    · simp only [try_quote, if_neg ha] at h
      cases hrest : quoteGo (i + 1) rest with
      | error e => rw [hrest] at h; simp at h
      | ok tail =>
        cases hb with
        | head => exact ha
        | tail _ hb2 => exact ih (i + 1) tail hrest b hb2

/-- A successful `quote_subcommand` implies every argument is NUL-free. -/
theorem quote_subcommand_ok_nulfree (args : List (List Nat)) (out : List Nat)
    (h : quote_subcommand args = .ok out) : ∀ a ∈ args, (0 : Nat) ∉ a :=
  quoteGo_ok_nulfree args 0 out h

/-- If some argument embeds a NUL byte, `quoteGo` fails with an escaping
error. -/
theorem quoteGo_err (args : List (List Nat)) (i : Nat)
    (h : ∃ a ∈ args, (0 : Nat) ∈ a) :
    ∃ j, quoteGo i args = .error (.escaping j) := by
  induction args generalizing i with
  | nil => obtain ⟨a, ha, _⟩ := h; cases ha
  | cons a rest ih =>
    by_cases ha : (0 : Nat) ∈ a
    · exact ⟨i, by simp [quoteGo, try_quote, ha]⟩
    · obtain ⟨b, hb, hb0⟩ := h
      have hbrest : b ∈ rest := by
        cases hb with
        | head => exact absurd hb0 ha
        | tail _ h2 => exact h2
      obtain ⟨j, hj⟩ := ih (i + 1) ⟨b, hbrest, hb0⟩
      refine ⟨j, ?_⟩
      rw [quoteGo]
      simp only [try_quote, if_neg ha, hj]

/-- C6: for every sequence of byte-string arguments none of which contains a
NUL byte, `quote_subcommand` succeeds, quoting each argument independently and
joining them with single spaces, and splitting the resulting byte string with
the POSIX-shell tokenizer yields back exactly the original argument sequence
(the function is a pure, deterministic Lean function with no side effects). -/
theorem c6_quote_roundtrip (args : List (List Nat)) (h : ∀ a ∈ args, (0 : Nat) ∉ a) :
    quote_subcommand args = .ok (joinQuoted args)
      ∧ shellSplit (joinQuoted args) .norm [] false = some args :=
  ⟨quote_subcommand_ok args h, shellSplit_joinQuoted args⟩

/-- Witness for C6 at a concrete argument list containing a space, an empty
argument, an embedded single quote and shell metacharacters. -/
theorem c6_quote_roundtrip_witness :
    (∀ a ∈ args0, (0 : Nat) ∉ a)
      ∧ (quote_subcommand args0 = .ok (joinQuoted args0)
        ∧ shellSplit (joinQuoted args0) .norm [] false = some args0) :=
  ⟨by decide, c6_quote_roundtrip args0 (by decide)⟩

/-- C7: for any argument sequence in which some argument contains a NUL byte,
`quote_subcommand` fails with an escaping error rather than producing
output. -/
theorem c7_quote_rejects_nul (args : List (List Nat))
    (h : ∃ a ∈ args, (0 : Nat) ∈ a) :
    ∃ j, quote_subcommand args = .error (.escaping j) :=
  quoteGo_err args 0 h

/-- Witness for C7 at a concrete argument list whose second argument embeds a
NUL byte. -/
theorem c7_quote_rejects_nul_witness :
    (∃ a ∈ args1, (0 : Nat) ∈ a)
      ∧ ∃ j, quote_subcommand args1 = .error (.escaping j) :=
  ⟨by decide, c7_quote_rejects_nul args1 (by decide)⟩

/-- A join whose right side is relative onto a nonempty left side not ending in
a separator inserts exactly one separator. -/
theorem pathJoin_rel (p q : List Nat) (hp0 : p ≠ []) (hp : p.getLast? ≠ some 47)
    (hq : q.head? ≠ some 47) : pathJoin p q = p ++ 47 :: q := by
  simp [pathJoin, hq, hp0, hp]

/-- The last byte of a separator-joined path is the last byte of its final
component. -/
theorem getLast?_sep (x c : List Nat) (hc : c ≠ []) :
    (x ++ 47 :: c).getLast? = c.getLast? := by
  rw [List.getLast?_append_of_ne_nil x (by simp)]
  have h47 : (47 : Nat) :: c = [47] ++ c := rfl
  rw [h47, List.getLast?_append_of_ne_nil [47] hc]

/-- Joining two relative components under a clean root inserts exactly one
separator at each level. -/
theorem pathJoin2 (root c name : List Nat) (h1 : root ≠ []) (h2 : root.getLast? ≠ some 47)
    (hc1 : c.head? ≠ some 47) (hc2 : c ≠ []) (hc3 : c.getLast? ≠ some 47)
    (h3 : name.head? ≠ some 47) :
    pathJoin (pathJoin root c) name = (root ++ 47 :: c) ++ 47 :: name := by
  rw [pathJoin_rel root c h1 h2 hc1]
  rw [pathJoin_rel (root ++ 47 :: c) name (by simp) (by rw [getLast?_sep root c hc2]; exact hc3) h3]

/-- Inversion of a successful `mount_prefix`: the returned merged path is the
system mount directory, the mount statement quoted successfully (hence every
mount argument is NUL-free), and the channel acknowledged the statement. -/
theorem mount_prefix_ok_inv (wOk : Nat → Bool) (pipe : List ReadEvent)
    (basisP systemP mp : List Nat) (st1 : ChanSt)
    (h : mount_prefix wOk pipe basisP systemP = .ok (mp, st1)) :
    mp = system_mount_path systemP
      ∧ (∀ a ∈ mountArgs basisP systemP, (0 : Nat) ∉ a)
      ∧ sudo_exec wOk ⟨0, pipe, []⟩ (joinQuoted (mountArgs basisP systemP)) = (st1, none) := by
  rw [ mount_prefix] at h
  cases hq : quote_subcommand (mountArgs basisP systemP) with
  | error e =>
    cases e with
    | escaping i => rw [hq] at h; simp at h
  | ok stmt =>
    have hnul : ∀ a ∈ mountArgs basisP systemP, (0 : Nat) ∉ a :=
      quote_subcommand_ok_nulfree _ _ hq
    have hstmt : stmt = joinQuoted (mountArgs basisP systemP) := by
      have := quote_subcommand_ok _ hnul
      rw [hq] at this
      exact (Except.ok.injEq _ _).mp this
    rw [hq] at h
    simp only at h
    cases he : (sudo_exec wOk { i := 0, pipe := pipe, written := [] } stmt).2 with
    | some e => rw [he] at h; simp at h
    | none =>
      rw [he] at h
      simp only [Except.ok.injEq, Prod.mk.injEq] at h
      obtain ⟨hmp, hst⟩ := h
      refine ⟨hmp.symm, hnul, ?_⟩
      rw [← hstmt]
      have : sudo_exec wOk { i := 0, pipe := pipe, written := [] } stmt
          = ((sudo_exec wOk { i := 0, pipe := pipe, written := [] } stmt).1,
            (sudo_exec wOk { i := 0, pipe := pipe, written := [] } stmt).2) := rfl
      rw [this, he, hst]

/-- C8: the layer path resolver is a set of pure, total functions (no I/O, no
failure modes): for every root and well-formed name (nonempty, not starting or
ending with a separator), basis paths are root/basis/name with a prefix
subdirectory and a config file path, system paths are root/system/name with
prefix, overlay_work and mount subdirectories and a config file path, and the
merged path returned by a successful acquire is exactly root/system/name/mount. -/
theorem c8_path_resolver (root name : List Nat) (h1 : root ≠ [])
    (h2 : root.getLast? ≠ some 47) (h3 : name.head? ≠ some 47)
    (h4 : name ≠ []) (h5 : name.getLast? ≠ some 47) :
    basis_path root name = root ++ ascii "/basis/" ++ name
    ∧ basis_prefix_path (basis_path root name)
        = root ++ ascii "/basis/" ++ name ++ ascii "/prefix"
    ∧ basis_config_path (basis_path root name)
        = root ++ ascii "/basis/" ++ name ++ ascii "/config.json"
    ∧ system_path root name = root ++ ascii "/system/" ++ name
    ∧ system_prefix_path (system_path root name)
        = root ++ ascii "/system/" ++ name ++ ascii "/prefix"
    ∧ system_overlay_work_path (system_path root name)
        = root ++ ascii "/system/" ++ name ++ ascii "/overlay_work"
    ∧ system_mount_path (system_path root name)
        = root ++ ascii "/system/" ++ name ++ ascii "/mount"
    ∧ system_config_path (system_path root name)
        = root ++ ascii "/system/" ++ name ++ ascii "/config.json"
    ∧ (∀ (wOk : Nat → Bool) (pipe : List ReadEvent) (bp mp : List Nat) (st1 : ChanSt),
        mount_prefix wOk pipe bp (system_path root name) = .ok (mp, st1) →
          mp = root ++ ascii "/system/" ++ name ++ ascii "/mount") := by
  have eBasis : ascii "basis" = [98, 97, 115, 105, 115] := by decide
  have eSystem : ascii "system" = [115, 121, 115, 116, 101, 109] := by decide
  have hbasis : basis_path root name = (root ++ 47 :: ascii "basis") ++ 47 :: name :=
    pathJoin2 root (ascii "basis") name h1 h2 (by decide) (by decide) (by decide) h3
  have hsystem : system_path root name = (root ++ 47 :: ascii "system") ++ 47 :: name :=
    pathJoin2 root (ascii "system") name h1 h2 (by decide) (by decide) (by decide) h3
  have hbNe : basis_path root name ≠ [] := by rw [hbasis]; simp
  have hsNe : system_path root name ≠ [] := by rw [hsystem]; simp
  have hbLast : (basis_path root name).getLast? ≠ some 47 := by
    rw [hbasis, getLast?_sep _ name h4]; exact h5
  have hsLast : (system_path root name).getLast? ≠ some 47 := by
    rw [hsystem, getLast?_sep _ name h4]; exact h5
  have hb : basis_path root name = root ++ ascii "/basis/" ++ name := by
    rw [hbasis, eBasis]
    have e2 : ascii "/basis/" = [47, 98, 97, 115, 105, 115, 47] := by decide
    rw [e2]; simp
  have hs : system_path root name = root ++ ascii "/system/" ++ name := by
    rw [hsystem, eSystem]
    have e2 : ascii "/system/" = [47, 115, 121, 115, 116, 101, 109, 47] := by decide
    rw [e2]; simp
  have hsm : system_mount_path (system_path root name)
      = root ++ ascii "/system/" ++ name ++ ascii "/mount" := by
    rw [system_mount_path, pathJoin_rel _ _ hsNe hsLast (by decide), hs]
    have e3 : ascii "/mount" = 47 :: ascii "mount" := by decide
    rw [e3]
  refine ⟨hb, ?_, ?_, hs, ?_, ?_, hsm, ?_, ?_⟩
  · rw [basis_prefix_path, pathJoin_rel _ _ hbNe hbLast (by decide), hb]
    have e3 : ascii "/prefix" = 47 :: ascii "prefix" := by decide
    rw [e3]
  · rw [basis_config_path, pathJoin_rel _ _ hbNe hbLast (by decide), hb]
    have e3 : ascii "/config.json" = 47 :: ascii "config.json" := by decide
    rw [e3]
  · rw [system_prefix_path, pathJoin_rel _ _ hsNe hsLast (by decide), hs]
    have e3 : ascii "/prefix" = 47 :: ascii "prefix" := by decide
    rw [e3]
  · rw [system_overlay_work_path, pathJoin_rel _ _ hsNe hsLast (by decide), hs]
    have e3 : ascii "/overlay_work" = 47 :: ascii "overlay_work" := by decide
    rw [e3]
  · rw [system_config_path, pathJoin_rel _ _ hsNe hsLast (by decide), hs]
    have e3 : ascii "/config.json" = 47 :: ascii "config.json" := by decide
    rw [e3]
  · intro wOk pipe bp mp st1 hok
    have := (mount_prefix_ok_inv wOk pipe bp (system_path root name) mp st1 hok).1
    rw [this, hsm]

/-- Witness for C8 at root /data and name b1. -/
theorem c8_path_resolver_witness :
    (ascii "/data" ≠ [] ∧ (ascii "/data").getLast? ≠ some 47
      ∧ (ascii "b1").head? ≠ some 47 ∧ ascii "b1" ≠ []
      ∧ (ascii "b1").getLast? ≠ some 47)
    ∧ basis_path (ascii "/data") (ascii "b1")
        = ascii "/data" ++ ascii "/basis/" ++ ascii "b1" :=
  ⟨⟨by decide, by decide, by decide, by decide, by decide⟩,
    (c8_path_resolver (ascii "/data") (ascii "b1") (by decide) (by decide) (by decide)
      (by decide) (by decide)).1⟩

/-- C9: config records are version-tagged unions: writers always emit the
current (latest, V1) version; a record written as the latest version and read
back reproduces identical field values; and reading a record whose version tag
is not recognized yields an unknown-schema-version error rather than a panic
or a silent default. -/
theorem c9_config_versioning :
    (∀ c : BasisConfig, decodeBasisConfig (encodeBasisConfig c) = .ok c)
    ∧ (∀ c : SystemConfig, decodeSystemConfig (encodeSystemConfig c) = .ok c)
    ∧ (∀ c : BasisConfigV1, ∃ p, basis_write_value c = .jobj [("V1", p)])
    ∧ (∀ c : SystemConfigV1, ∃ p, system_write_value c = .jobj [("V1", p)])
    ∧ (∀ (t : String) (p : JVal), t ≠ "V1" →
        decodeBasisConfig (.jobj [(t, p)]) = .error .unknownVariant)
    ∧ (∀ (t : String) (p : JVal), t ≠ "V1" →
        decodeSystemConfig (.jobj [(t, p)]) = .error .unknownVariant) := by
  refine ⟨?_, ?_, ?_, ?_, ?_, ?_⟩
  · intro c
    cases c with
    | V1 c =>
      cases c with
      | mk a => cases a <;> rfl
  · intro c
    cases c with
    | V1 c => cases c; rfl
  · intro c; exact ⟨encodeBasisV1 c, rfl⟩
  · intro c; exact ⟨encodeSystemV1 c, rfl⟩
  · intro t p h
    rw [decodeBasisConfig]
    simp [h]
  · intro t p h
    rw [decodeSystemConfig]
    simp [h]

/-- Witness for C9: the unknown tag V2 is rejected for both record kinds, and
a concrete V1 record round-trips. -/
theorem c9_config_versioning_witness :
    ("V2" ≠ "V1"
      ∧ decodeBasisConfig (.jobj [("V2", .jstr "x")]) = .error .unknownVariant)
    ∧ decodeBasisConfig (encodeBasisConfig (.V1 { arch := .Win64 }))
        = .ok (.V1 { arch := .Win64 }) :=
  ⟨⟨by decide, c9_config_versioning.2.2.2.2.1 "V2" (.jstr "x") (by decide)⟩,
    c9_config_versioning.1 (.V1 { arch := .Win64 })⟩

/-- C10: if basis create is invoked with a name whose basis directory already
exists, the operation fails with an already-exists error before creating any
directory or writing any config file: the returned filesystem is exactly the
input filesystem. -/
theorem c10_basis_create_rejects_existing (fs : List (List Nat)) (root name : List Nat)
    (h : basis_path root name ∈ fs) :
    basis_create fs root name = (fs, some .alreadyExists) := by
  simp [basis_create, h]

/-- Witness for C10 at a filesystem already holding the basis directory. -/
theorem c10_basis_create_rejects_existing_witness :
    bpath0 ∈ [bpath0]
      ∧ basis_create [bpath0] (ascii "/data") (ascii "b1") = ([bpath0], some .alreadyExists) :=
  ⟨by decide, c10_basis_create_rejects_existing [bpath0] (ascii "/data") (ascii "b1")
    (by decide)⟩

/-- Every byte of a rendered decimal number is a digit. -/
theorem natDigitsAux_digits (f : Nat) : ∀ n, ∀ b ∈ natDigitsAux f n, 48 ≤ b ∧ b ≤ 57 := by
  induction f with
  | zero => intro n b hb; cases hb
  | succ f ih =>
    intro n b hb
    rw [natDigitsAux] at hb
    by_cases h : n < 10
    · rw [if_pos h] at hb
      cases hb with
      | head => omega
      | tail _ h2 => cases h2
    · rw [if_neg h] at hb
      rcases List.mem_append.mp hb with h1 | h2
      · exact ih (n / 10) b h1
      · have : b = 48 + n % 10 := by
          cases h2 with
          | head => rfl
          | tail _ h3 => cases h3
        have : n % 10 < 10 := Nat.mod_lt n (by omega)
        omega

/-- Every byte of a marker is a decimal digit. -/
theorem natDigits_digits (n : Nat) : ∀ b ∈ natDigits n, 48 ≤ b ∧ b ≤ 57 :=
  natDigitsAux_digits (n + 1) n

/-- Dropping a satisfied-by-nothing predicate from the front is the
identity. -/
theorem dropWhile_eq_self (p : Nat → Bool) (l : List Nat)
    (h : ∀ b ∈ l, p b = false) : l.dropWhile p = l := by
  cases l with
  | nil => rfl
  | cons a t =>
    rw [List.dropWhile_cons]
    simp [h a (List.mem_cons_self a t)]

/-- Trimming a whitespace-free line is the identity. -/
theorem trimBytes_eq_self (s : List Nat) (h : ∀ b ∈ s, isWs b = false) :
    trimBytes s = s := by
  rw [trimBytes, dropWhile_eq_self _ s h,
    dropWhile_eq_self _ s.reverse (fun b hb => h b (List.mem_reverse.mp hb)),
    List.reverse_reverse]

/-- Markers carry no whitespace, so the line trim leaves them unchanged. -/
theorem trim_natDigits (n : Nat) : trimBytes (natDigits n) = natDigits n := by
  refine trimBytes_eq_self _ (fun b hb => ?_)
  have := natDigits_digits n b hb
  simp only [isWs, Bool.or_eq_false_iff, decide_eq_false_iff_not]
  omega

/-- Submitting one statement over a channel whose next pipe line is the
expected marker succeeds, consuming exactly that line, advancing the counter
and recording the statement and its echo. -/
theorem sudo_exec_ack (wOk : Nat → Bool) (k : Nat) (pipeRest : List ReadEvent)
    (tr : List (List Nat)) (s : List Nat) (h : wOk k = true) :
    sudo_exec wOk ⟨k, .line (natDigits k) :: pipeRest, tr⟩ s
      = (⟨k + 1, pipeRest, tr ++ [s, echoStmt k]⟩, none) := by
  rw [sudo_exec]
  simp only [h, if_pos]
  rw [readLoop]
  simp [trim_natDigits]

/-- Sequential submission against a child that acknowledges everything:
every statement succeeds, acknowledgments are consumed strictly in order
(the pipe is drained exactly front to back), the marker counter ends at
`k + n`, and the write trace is the interleaved script. -/
theorem execAll_acks (stmts : List (List Nat)) (k : Nat) (tr : List (List Nat)) :
    execAll allW ⟨k, ackLines k stmts.length, tr⟩ stmts
      = (⟨k + stmts.length, [], tr ++ script k stmts⟩, none) := by
  induction stmts generalizing k tr with
  | nil => simp [execAll, ackLines, script]
  | cons s rest ih =>
    rw [execAll]
    have hlen : (s :: rest).length = rest.length + 1 := rfl
    rw [hlen, ackLines, sudo_exec_ack allW k _ tr s rfl]
    simp only
    rw [ih (k + 1) (tr ++ [s, echoStmt k])]
    rw [script]
    have hnum : k + 1 + rest.length = k + (rest.length + 1) := by omega
    rw [hnum]
    simp [List.append_assoc]

/-- In the child's event trace, position 2j holds the execution of the j-th
statement (and is absent exactly when there is no j-th statement). -/
theorem childRun_exec (stmts : List (List Nat)) (k j : Nat) :
    (childRun k stmts).get? (2 * j) = Option.map CEvent.exec (stmts.get? j) := by
  induction stmts generalizing k j with
  | nil => simp [childRun]
  | cons s rest ih =>
    cases j with
    | zero => simp [childRun]
    | succ j =>
      rw [childRun]
      have h2 : 2 * (j + 1) = 2 * j + 1 + 1 := by omega
      rw [h2, List.get?_cons_succ, List.get?_cons_succ, ih (k + 1) j,
        List.get?_cons_succ]

/-- In the child's event trace, position 2j+1 holds the acknowledgment of the
j-th statement, with marker value k+j: the acknowledgment of statement j is
emitted strictly after statement j's execution (position 2j) and strictly
after statement j-1's acknowledgment (position 2j-1). -/
theorem childRun_ack (stmts : List (List Nat)) (k j : Nat) :
    (childRun k stmts).get? (2 * j + 1)
      = Option.map (fun _ => CEvent.ack (k + j)) (stmts.get? j) := by
  induction stmts generalizing k j with
  | nil => simp [childRun]
  | cons s rest ih =>
    cases j with
    | zero => simp [childRun]
    | succ j =>
      rw [childRun]
      have h2 : 2 * (j + 1) + 1 = 2 * j + 1 + 1 + 1 := by omega
      rw [h2, List.get?_cons_succ, List.get?_cons_succ, ih (k + 1) j,
        List.get?_cons_succ]
      have h3 : k + 1 + j = k + (j + 1) := by omega
      rw [h3]

/-- The acknowledgment markers the child emits are exactly k, k+1, ..., in
order: a strictly increasing per-session sequence. -/
theorem acksOf_childRun (stmts : List (List Nat)) (k : Nat) :
    acksOf (childRun k stmts) = List.range' k stmts.length := by
  induction stmts generalizing k with
  | nil => simp [childRun, acksOf]
  | cons s rest ih =>
    rw [childRun, acksOf, acksOf, ih (k + 1)]
    rfl

/-- C5: statements submitted sequentially on one privileged channel are
executed by the elevated interpreter strictly in submission order, and the
acknowledgment markers form a monotonically increasing per-session sequence.
Conjunct 1: against a child that acknowledges everything, the parent drains
the acknowledgment pipe strictly front to back, succeeds on every statement,
and its counter advances once per statement (so observed markers are
k, k+1, ...).  Conjunct 2: the child emits the markers in exactly that
increasing order.  Conjuncts 3 and 4: in the child's synchronous event trace,
statement j runs at position 2j and its acknowledgment is emitted at position
2j+1 — after statement j's effects and after statement j-1's acknowledgment
(position 2j-1). -/
theorem c5_session_ordering (stmts : List (List Nat)) (k : Nat) :
    execAll allW ⟨k, ackLines k stmts.length, []⟩ stmts
        = (⟨k + stmts.length, [], script k stmts⟩, none)
    ∧ acksOf (childRun k stmts) = List.range' k stmts.length
    ∧ (∀ j, (childRun k stmts).get? (2 * j) = Option.map CEvent.exec (stmts.get? j))
    ∧ (∀ j, (childRun k stmts).get? (2 * j + 1)
        = Option.map (fun _ => CEvent.ack (k + j)) (stmts.get? j)) := by
  refine ⟨?_, acksOf_childRun stmts k, fun j => childRun_exec stmts k j,
    fun j => childRun_ack stmts k j⟩
  have h := execAll_acks stmts k []
  simpa using h

/-- The quoted mount statement is not recognized as an umount statement. -/
theorem isUmount_mount_stmt (b s : List Nat) :
    isUmount (joinQuoted (mountArgs b s)) = false := by
  have e : ascii "mount" = [109, 111, 117, 110, 116] := by decide
  have e2 : escAll [109, 111, 117, 110, 116] = [109, 111, 117, 110, 116] := by decide
  rw [mountArgs, joinQuoted, quoteOne, e, e2]
  simp [isUmount, List.take]

/-- A marker echo statement is not recognized as an umount statement. -/
theorem isUmount_echo (n : Nat) : isUmount (echoStmt n) = false := by
  have e : ascii "echo " = [101, 99, 104, 111, 32] := by decide
  rw [echoStmt, e]
  simp [isUmount, List.take]

/-- The quoted umount statement is recognized as an umount statement. -/
theorem isUmount_umount (mp : List Nat) :
    isUmount (joinQuoted [ascii "umount", mp]) = true := by
  have e : ascii "umount" = [117, 109, 111, 117, 110, 116] := by decide
  have e2 : escAll [117, 109, 111, 117, 110, 116] = [117, 109, 111, 117, 110, 116] := by decide
  rw [joinQuoted, quoteOne, e, e2]
  simp [isUmount, List.take]

/-- The umount argument list is NUL-free whenever the mount path is. -/
theorem umount_args_nulfree (mp : List Nat) (h : (0 : Nat) ∉ mp) :
    ∀ a ∈ [ascii "umount", mp], (0 : Nat) ∉ a := by
  intro a ha
  rcases List.mem_cons.mp ha with h1 | h2
  · subst h1; decide
  · have : a = mp := by simpa using h2
    subst this; exact h

/-- Release always returns (never raises): when the mount path is NUL-free,
the guard body completes with the channel state of the one umount submission,
and the warning list is nonempty exactly when the umount submission failed or
the elevated process did not exit cleanly. -/
theorem releaseGuard_trace (wOk : Nat → Bool) (waitRes : Option Bool) (mp : List Nat)
    (st : ChanSt) (h : (0 : Nat) ∉ mp) :
    ∃ ws, releaseGuard wOk waitRes mp st
        = .ok (ws, (sudo_exec wOk st (joinQuoted [ascii "umount", mp])).1)
      ∧ (((sudo_exec wOk st (joinQuoted [ascii "umount", mp])).2 ≠ none
          ∨ waitRes ≠ some true) ↔ ws ≠ []) := by
  have hq : quote_subcommand [ascii "umount", mp]
      = .ok (joinQuoted [ascii "umount", mp]) :=
    quote_subcommand_ok _ (umount_args_nulfree mp h)
  cases he : (sudo_exec wOk st (joinQuoted [ascii "umount", mp])).2 with
  | some e =>
    refine ⟨["Error completing cleanup"], ?_, ?_⟩
    · rw [releaseGuard, hq]
      simp only [he]
    · simp [he]
  | none =>
    cases waitRes with
    | none =>
      refine ⟨["Error completing cleanup"], ?_, ?_⟩
      · rw [releaseGuard, hq]
        simp only [he]
      · simp [he]
    | some b =>
      cases b with
      | true =>
        refine ⟨[], ?_, ?_⟩
        · rw [releaseGuard, hq]
          simp only [he]
        · simp [he]
      | false =>
        refine ⟨["Cleanup sudo process exited with error"], ?_, ?_⟩
        · rw [releaseGuard, hq]
          simp only [he]
        · simp [he]

/-- C4: guard release never raises to the caller: for every channel behavior,
wait outcome and channel state, with a NUL-free mount path (guaranteed for any
path a guard was acquired for), release completes with an `.ok` result — any
failure submitting the unmount statement or waiting for the elevated process,
including a non-zero exit status, is recorded as a warning (the warning list
is nonempty exactly in those cases) and swallowed. -/
theorem c4_release_never_raises (wOk : Nat → Bool) (waitRes : Option Bool)
    (mp : List Nat) (st : ChanSt) (h : (0 : Nat) ∉ mp) :
    ∃ ws st2, releaseGuard wOk waitRes mp st = .ok (ws, st2)
      ∧ (((sudo_exec wOk st (joinQuoted [ascii "umount", mp])).2 ≠ none
          ∨ waitRes ≠ some true) ↔ ws ≠ []) := by
  obtain ⟨ws, h1, h2⟩ := releaseGuard_trace wOk waitRes mp st h
  exact ⟨ws, _, h1, h2⟩

/-- Witness for C4: a channel whose writes all fail (the elevated process is
gone) still releases without raising, and a warning is recorded. -/
theorem c4_release_never_raises_witness :
    ((0 : Nat) ∉ ascii "/data/system/s1/mount")
      ∧ ∃ ws st2, releaseGuard (fun _ => false) (some true) (ascii "/data/system/s1/mount")
            ⟨1, [], []⟩ = .ok (ws, st2)
        ∧ (((sudo_exec (fun _ => false) ⟨1, [], []⟩
              (joinQuoted [ascii "umount", ascii "/data/system/s1/mount"])).2 ≠ none
            ∨ (some true : Option Bool) ≠ some true) ↔ ws ≠ []) :=
  ⟨by decide, c4_release_never_raises (fun _ => false) (some true)
    (ascii "/data/system/s1/mount") ⟨1, [], []⟩ (by decide)⟩

/-- The channel state after a `sudo_exec` call records the attempted
statement, and — when the writes went through — the marker echo statement. -/
theorem sudo_exec_written (wOk : Nat → Bool) (st : ChanSt) (stmt : List Nat) :
    (sudo_exec wOk st stmt).1.written = st.written ++ [stmt, echoStmt st.i]
      ∨ (sudo_exec wOk st stmt).1.written = st.written ++ [stmt] := by
  rw [sudo_exec]
  by_cases h : wOk st.i
  · left; simp [h]
  · right; simp [h]

/-- A `sudo_exec` call that reported no error recorded the statement and its
marker echo. -/
theorem sudo_exec_none_written (wOk : Nat → Bool) (st : ChanSt) (stmt : List Nat)
    (st1 : ChanSt) (h : sudo_exec wOk st stmt = (st1, none)) :
    st1.written = st.written ++ [stmt, echoStmt st.i] := by
  rw [sudo_exec] at h
  by_cases hw : wOk st.i
  · rw [if_pos hw] at h
    have h1 := congrArg Prod.fst h
    simp only at h1
    rw [← h1]
  · rw [if_neg hw] at h
    have h2 := congrArg Prod.snd h
    simp at h2

set_option maxHeartbeats 1000000 in
/-- C3: for every guard returned by a successful acquire, on every exit path of
the caller (body success or body error — the guard is dropped on both), the
unmount statement is submitted exactly once on the channel: the full submitted
trace of the session contains exactly one umount statement, whatever the
channel write oracle, pipe behavior and wait outcome during release. -/
theorem c3_unmount_exactly_once (wOk : Nat → Bool) (pipe : List ReadEvent)
    (waitRes : Option Bool) (basisP systemP : List Nat) (body : BodyOut)
    (mp : List Nat) (st1 : ChanSt)
    (hacq : mount_prefix wOk pipe basisP systemP = .ok (mp, st1)) :
    List.countP isUmount (system_shell_main wOk pipe waitRes basisP systemP body).2 = 1 := by
  obtain ⟨hmp, hnul, hexec⟩ := mount_prefix_ok_inv wOk pipe basisP systemP mp st1 hacq
  have hmp0 : (0 : Nat) ∉ mp := by
    rw [hmp]
    exact hnul (system_mount_path systemP) (by simp [mountArgs])
  have hwr : st1.written = [joinQuoted (mountArgs basisP systemP), echoStmt 0] := by
    have := sudo_exec_none_written wOk ⟨0, pipe, []⟩ (joinQuoted (mountArgs basisP systemP))
      st1 hexec
    simpa using this
  obtain ⟨ws, hrel, _⟩ := releaseGuard_trace wOk waitRes mp st1 hmp0
  have htrace : (system_shell_main wOk pipe waitRes basisP systemP body).2
      = (sudo_exec wOk st1 (joinQuoted [ascii "umount", mp])).1.written := by
    rw [system_shell_main.eq_def, hacq]
    simp only
    rw [hrel]
  rw [htrace]
  have hcount1 : List.countP isUmount st1.written = 0 := by
    rw [hwr]
    simp [List.countP_cons, isUmount_mount_stmt, isUmount_echo]
  rcases sudo_exec_written wOk st1 (joinQuoted [ascii "umount", mp]) with hc | hc <;>
    rw [hc] <;>
    simp [List.countP_append, hcount1, List.countP_cons, isUmount_umount, isUmount_echo]

/-- Witness for C3 at a concrete healthy acquire followed by a failing body. -/
theorem c3_unmount_exactly_once_witness :
    mount_prefix allW [ReadEvent.line (natDigits 0)] bpath0 spath0
        = .ok (system_mount_path spath0,
            ⟨1, [], [joinQuoted (mountArgs bpath0 spath0), echoStmt 0]⟩)
      ∧ List.countP isUmount
          (system_shell_main allW [ReadEvent.line (natDigits 0)] (some true)
            bpath0 spath0 .bodyErr).2 = 1 :=
  ⟨rfl, c3_unmount_exactly_once allW [ReadEvent.line (natDigits 0)] (some true)
    bpath0 spath0 .bodyErr (system_mount_path spath0)
    ⟨1, [], [joinQuoted (mountArgs bpath0 spath0), echoStmt 0]⟩ rfl⟩

/-- C1 (divergence witness): when the mount statement fails, the elevated
bash -eu process exits without echoing marker 0 and the parent-side pipe
reaches EOF — modelled by the empty pipe stream.  `mount_prefix` nevertheless
returns `.ok` with a guard and the merged path, because the acknowledgment
read loop treats EOF as success; the spec requires a MountFailed error and no
guard. -/
theorem c1_mount_failure_returns_guard :
    mount_prefix allW [] bpath0 spath0
      = .ok (system_mount_path spath0,
          ⟨1, [], [joinQuoted (mountArgs bpath0 spath0), echoStmt 0]⟩) := rfl

/-- C2 (divergence witness): a statement submitted on a channel whose
acknowledgment pipe closes (EOF) before the expected marker line is observed
is reported as successfully acknowledged (`none` error) by `sudo_exec`,
instead of failing with a channel-broken error as the spec requires. -/
theorem c2_eof_reported_as_success :
    sudo_exec allW ⟨0, [], []⟩ (ascii "true")
      = (⟨1, [], [ascii "true", echoStmt 0]⟩, none) := rfl
